import Mathlib

/-!
Shallow embedding of the recurse-pair S-expression system: the character-driven
parsing engine of parse.py, the AST-building callbacks of parse.py, the fused
evaluator of eval.py, and the fused typechecker of typecheck.py, together with
theorems checking the specified behavior against this embedding.
-/

namespace RecursePair

/-- Failure outcomes of the embedded program.  Each constructor models one of
the Python exceptions raised by parse.py, eval.py or typecheck.py: the
ValueError variants of the parser and drivers, IndexError from indexing or
popping an exhausted character list, AssertionError from the typechecker's
assert statements, TypeError from bad calls, plus an out-of-fuel marker for
the fuelled recursion (never reached by the drivers below). -/
inductive Err where
  | outOfFuel
  | unexpectedEndOfInput
  | unexpectedCharacter (c : Char)
  | unexpectedRemaining (cs : List Char)
  | invalidEscape (c : Char)
  | indexError
  | unknownSymbol (s : List Char)
  | applicationError
  | unpackError
  | assertionError
  deriving DecidableEq

/-- Callback bundle of parse.py's Callbacks protocol: six handlers, one per
syntactic category.  Handlers may fail (the eval and typecheck consumers
raise), so each returns in Except. -/
structure Callbacks (T : Type) where
  on_integer : Int → Except Err T
  on_float : ℚ → Except Err T
  on_boolean : Bool → Except Err T
  on_string : List Char → Except Err T
  on_symbol : List Char → Except Err T
  on_list : List T → Except Err T

/-- Parser states of parse.py's _State union. -/
inductive PState (T : Type) where
  | initial
  | inList (values : List T)
  | inDigits (value : List Char)
  | inDecimal (value : List Char)
  | inString (value : List Char) (quote_type : Char)
  | inSymbol (value : List Char)

/-- The DIGITS constant of parse.py. -/
def DIGITS : List Char := "0123456789".toList

/-- The SYMBOL_CHARACTERS constant of parse.py. -/
def SYMBOL_CHARACTERS : List Char :=
  "abcdefghijklmnopqrstuvwxyzABCDEFGHIJKLMNOPQRSTUVWXYZ*-+/".toList

/-- Numeric value of a digit string, as Python's int() computes it on text
made of the characters "0".."9". -/
def digitsToNat (s : List Char) : Nat :=
  s.foldl (fun n c => 10 * n + (c.toNat - 48)) 0

/-- Python int() applied to the digit text accumulated in the InDigits state. -/
def pyInt (s : List Char) : Int :=
  (digitsToNat s : Int)

/-- Python float() applied to the text accumulated in the InDecimal state
(digits, one dot, then digits, possibly none).  The exact decimal value is
kept as a rational. -/
def pyFloat (s : List Char) : ℚ :=
  let ip := s.takeWhile (fun c => c ≠ '.')
  let fp := (s.dropWhile (fun c => c ≠ '.')).drop 1
  (digitsToNat ip : ℚ) + (digitsToNat fp : ℚ) / (10 : ℚ) ^ fp.length

/-- The character-driven state machine of _Parser.parse in parse.py.  The
Python loop pops characters from the front of a shared mutable list and either
updates the state, recurses for a nested list element (re-inserting the popped
character first), or fires exactly one callback and returns its result; atoms
closed by a right parenthesis push it back for the enclosing list.  The result
here is the callback's value paired with the characters left unconsumed.  The
fuel argument bounds the number of loop steps; the drivers below always supply
enough (two steps per character cover every pop, including re-pops of pushed
back characters). -/
def parseExpr (cb : Callbacks T) : Nat → PState T → List Char → Except Err (T × List Char)
  | 0, _, _ => .error .outOfFuel
  | _ + 1, _, [] => .error .unexpectedEndOfInput
  | fuel + 1, .initial, c :: cs =>
    if c = ' ' then parseExpr cb fuel .initial cs
    else if c = '(' then parseExpr cb fuel (.inList []) cs
    else if c ∈ DIGITS then parseExpr cb fuel (.inDigits [c]) cs
    else if c ∈ SYMBOL_CHARACTERS then parseExpr cb fuel (.inSymbol [c]) cs
    else if c = '\'' then parseExpr cb fuel (.inString [] '\'') cs
    else if c = '"' then parseExpr cb fuel (.inString [] '"') cs
    else .error (.unexpectedCharacter c)
  | fuel + 1, .inList vs, c :: cs =>
    if c = ')' then (cb.on_list vs).map fun t => (t, cs)
    else if c = ' ' then parseExpr cb fuel (.inList vs) cs
    else
      match parseExpr cb fuel .initial (c :: cs) with
      | .error e => .error e
      | .ok (v, rest) => parseExpr cb fuel (.inList (vs ++ [v])) rest
  | fuel + 1, .inDigits v, c :: cs =>
    if c ∈ DIGITS then parseExpr cb fuel (.inDigits (v ++ [c])) cs
    else if c = ' ' then (cb.on_integer (pyInt v)).map fun t => (t, cs)
    else if c = '.' then parseExpr cb fuel (.inDecimal (v ++ ['.'])) cs
    else if c = ')' then (cb.on_integer (pyInt v)).map fun t => (t, ')' :: cs)
    else .error (.unexpectedCharacter c)
  | fuel + 1, .inDecimal v, c :: cs =>
    if c ∈ DIGITS then parseExpr cb fuel (.inDecimal (v ++ [c])) cs
    else if c = ' ' then (cb.on_float (pyFloat v)).map fun t => (t, cs)
    else if c = ')' then (cb.on_float (pyFloat v)).map fun t => (t, ')' :: cs)
    else .error (.unexpectedCharacter c)
  | fuel + 1, .inSymbol v, c :: cs =>
    if c ∈ SYMBOL_CHARACTERS then parseExpr cb fuel (.inSymbol (v ++ [c])) cs
    else if c = ' ' then (cb.on_symbol v).map fun t => (t, cs)
    else if c = ')' then (cb.on_symbol v).map fun t => (t, ')' :: cs)
    else .error (.unexpectedCharacter c)
  | fuel + 1, .inString v q, c :: cs =>
    if (q = '"' ∧ c = '"') ∨ (q = '\'' ∧ c = '\'') then (cb.on_string v).map fun t => (t, cs)
    else if c = '\\' then
      match cs with
      | [] => .error .indexError
      | e :: cs' =>
        if q = '"' ∧ e = '"' then parseExpr cb fuel (.inString (v ++ ['"']) q) cs'
        else if q = '\'' ∧ e = '\'' then parseExpr cb fuel (.inString (v ++ ['\'']) q) cs'
        else if e = '\\' then parseExpr cb fuel (.inString (v ++ ['\\']) q) cs'
        else
          match cs' with
          | [] => .error .indexError
          | c2 :: _ => .error (.invalidEscape c2)
    else parseExpr cb fuel (.inString (v ++ [c]) q) cs

/-- The top-level parse driver of parse.py: turn the text into a character
list, run the machine on one expression, and fail if any characters remain
unconsumed. -/
def parse (cb : Callbacks T) (text : String) : Except Err T :=
  match parseExpr cb (2 * text.toList.length + 2) .initial text.toList with
  | .error e => .error e
  | .ok (v, []) => .ok v
  | .ok (_, c :: cs) => .error (.unexpectedRemaining (c :: cs))

/-- AstNode of parse.py: int, float, bool, str (string literals and symbols
both land in str, exactly as in the Python union), or list of nodes. -/
inductive AstNode where
  | int (n : Int)
  | float (q : ℚ)
  | bool (b : Bool)
  | str (s : List Char)
  | list (xs : List AstNode)

/-- Lowercase hexadecimal digit used by repr escapes. -/
def hexDigit (n : Nat) : Char :=
  if n < 10 then Char.ofNat (48 + n) else Char.ofNat (87 + n)

/-- One character of Python's repr for a str value with active quote q: escape
the backslash and the active quote, spell tab, newline and carriage return as
their two-character escapes, hex-escape the remaining ASCII control
characters, and keep every other character.  This is exact for ASCII content;
characters at or above 0x80 are kept literally here, whereas CPython escapes
the non-printable ones among them (a Unicode-category table this model does
not carry), so every theorem below that goes through repr restricts string
content to printable ASCII. -/
def reprEscape (q c : Char) : List Char :=
  if c = '\\' then ['\\', '\\']
  else if c = q then ['\\', q]
  else if c = '\t' then ['\\', 't']
  else if c = '\n' then ['\\', 'n']
  else if c = '\r' then ['\\', 'r']
  else if c.toNat < 32 ∨ c.toNat = 127 then
    ['\\', 'x', hexDigit (c.toNat / 16), hexDigit (c.toNat % 16)]
  else [c]

/-- Python's repr of a str value: the content between quotes, single-quoted,
except double-quoted when the content contains a single quote and no double
quote.  Exact for ASCII content; see the reprEscape comment for the scope of
the model above 0x80. -/
def pyRepr (s : List Char) : List Char :=
  let q : Char := if '\'' ∈ s ∧ ¬ '"' ∈ s then '"' else '\''
  q :: (s.map (reprEscape q)).flatten ++ [q]

/-- AstCallback of parse.py: echo the literals; string literals become the
repr text of their content. -/
def astCb : Callbacks AstNode where
  on_integer n := .ok (.int n)
  on_float q := .ok (.float q)
  on_boolean b := .ok (.bool b)
  on_string s := .ok (.str (pyRepr s))
  on_symbol s := .ok (.str s)
  on_list xs := .ok (.list xs)

/-- The parse_ast driver of parse.py. -/
def parse_ast (text : String) : Except Err AstNode :=
  parse astCb text

/-- The callables stored in eval.py's SYMBOL_TABLE: the list lambda,
operator.add (bound to both "add" and "+") and operator.getitem. -/
inductive Builtin where
  | bList
  | bAdd
  | bNth
  deriving DecidableEq

/-- Runtime values of eval.py (NodeValue = object): numbers, booleans,
strings, lists, and the table's callables. -/
inductive Value where
  | int (n : Int)
  | float (q : ℚ)
  | bool (b : Bool)
  | str (s : List Char)
  | list (vs : List Value)
  | builtin (b : Builtin)

/-- Python's bool-to-int coercion used by arithmetic and indexing on bool. -/
def boolToInt (b : Bool) : Int := if b then 1 else 0

/-- operator.add on the values this program can build: numeric addition (bool
counts as int, as in Python), string and list concatenation; any other pair
raises TypeError. -/
def pyAdd : Value → Value → Except Err Value
  | .int a, .int b => .ok (.int (a + b))
  | .int a, .float b => .ok (.float ((a : ℚ) + b))
  | .int a, .bool b => .ok (.int (a + boolToInt b))
  | .float a, .int b => .ok (.float (a + (b : ℚ)))
  | .float a, .float b => .ok (.float (a + b))
  | .float a, .bool b => .ok (.float (a + (boolToInt b : ℚ)))
  | .bool a, .int b => .ok (.int (boolToInt a + b))
  | .bool a, .float b => .ok (.float ((boolToInt a : ℚ) + b))
  | .bool a, .bool b => .ok (.int (boolToInt a + boolToInt b))
  | .str a, .str b => .ok (.str (a ++ b))
  | .list a, .list b => .ok (.list (a ++ b))
  | _, _ => .error .applicationError

/-- operator.getitem on the values this program can build: list and str
indexing with Python's negative-index wrap (bool indexes count as int);
an index of the wrong type raises TypeError, one out of range IndexError. -/
def pyGetitem : Value → Value → Except Err Value
  | .list vs, .int i =>
    let j : Int := if i < 0 then i + vs.length else i
    if j < 0 then .error .indexError
    else
      match vs[j.toNat]? with
      | some v => .ok v
      | none => .error .indexError
  | .list vs, .bool b =>
    match vs[(boolToInt b).toNat]? with
    | some v => .ok v
    | none => .error .indexError
  | .str s, .int i =>
    let j : Int := if i < 0 then i + s.length else i
    if j < 0 then .error .indexError
    else
      match s[j.toNat]? with
      | some c => .ok (.str [c])
      | none => .error .indexError
  | _, _ => .error .applicationError

/-- Python's call fn(*args) in eval.py's on_list: apply a table callable to
the positional arguments; a non-callable head or a wrong argument count for
the binary operators raises TypeError. -/
def applyValue : Value → List Value → Except Err Value
  | .builtin .bList, args => .ok (.list args)
  | .builtin .bAdd, [a, b] => pyAdd a b
  | .builtin .bNth, [a, b] => pyGetitem a b
  | .builtin .bAdd, _ => .error .applicationError
  | .builtin .bNth, _ => .error .applicationError
  | _, _ => .error .applicationError

/-- SYMBOL_TABLE of eval.py. -/
def SYMBOL_TABLE : List (List Char × Value) :=
  [(r"list".toList, .builtin .bList),
   (r"add".toList, .builtin .bAdd),
   (r"nth".toList, .builtin .bNth),
   (r"+".toList, .builtin .bAdd)]

/-- EvalCallback of eval.py: literals evaluate to themselves, symbols are
looked up eagerly in SYMBOL_TABLE (a miss raises at once), and a completed
list is unpacked into a head callable applied to the remaining values
(unpacking an empty list raises). -/
def evalCb : Callbacks Value where
  on_integer n := .ok (.int n)
  on_float q := .ok (.float q)
  on_boolean b := .ok (.bool b)
  on_string s := .ok (.str s)
  on_symbol s :=
    match SYMBOL_TABLE.lookup s with
    | some v => .ok v
    | none => .error (.unknownSymbol s)
  on_list vs :=
    match vs with
    | [] => .error .unpackError
    | fn :: args => applyValue fn args

/-- The eval_lisp driver of eval.py. -/
def eval_lisp (text : String) : Except Err Value :=
  parse evalCb text

/-- The type-level functions stored in typecheck.py's SYMBOL_TABLE. -/
inductive TFun where
  | tList
  | tAdd
  | tNth
  deriving DecidableEq

/-- Type descriptors of typecheck.py (NodeValue = type | Callable): the base
type objects, parameterized list-of aliases, and the table's type-level
functions as first-class values. -/
inductive Ty where
  | int
  | float
  | bool
  | str
  | listG (t : Ty)
  | tf (f : TFun)
  deriving DecidableEq

/-- add_type of typecheck.py: assert both arguments are int and give int;
Python's call machinery rejects any other arity with TypeError before the
asserts run. -/
def add_type : List Ty → Except Err Ty
  | [a, b] =>
    if a = .int then
      if b = .int then .ok .int else .error .assertionError
    else .error .assertionError
  | _ => .error .applicationError

/-- nth_type of typecheck.py: assert the index descriptor is int, then assert
the first argument is a parameterized list alias, and give its element type. -/
def nth_type : List Ty → Except Err Ty
  | [lst, idx] =>
    if idx = .int then
      match lst with
      | .listG t => .ok t
      | _ => .error .assertionError
    else .error .assertionError
  | _ => .error .applicationError

/-- list_type of typecheck.py: assert the arguments have exactly one distinct
descriptor (len(set(args)) == 1, the dedup length here), and give the
list-of alias over the first argument. -/
def list_type (args : List Ty) : Except Err Ty :=
  if args.dedup.length = 1 then
    match args with
    | a :: _ => .ok (.listG a)
    | [] => .error .indexError
  else .error .assertionError

/-- Python's call fn(*args) in typecheck.py's on_list: apply a table function
to the argument descriptors.  Applying a plain descriptor is modeled as
TypeError; Python's type objects used as constructors lie outside the typed
domain NodeValue = type | Callable and are not exercised by any input here. -/
def applyTy : Ty → List Ty → Except Err Ty
  | .tf .tList, args => list_type args
  | .tf .tAdd, args => add_type args
  | .tf .tNth, args => nth_type args
  | _, _ => .error .applicationError

/-- SYMBOL_TABLE of typecheck.py (it has no "+" entry, unlike eval.py's). -/
def TYPE_SYMBOL_TABLE : List (List Char × Ty) :=
  [(r"list".toList, .tf .tList),
   (r"add".toList, .tf .tAdd),
   (r"nth".toList, .tf .tNth)]

/-- TypecheckCallback of typecheck.py: literals give their base descriptors,
symbols are looked up eagerly in the type table, and a completed list is
unpacked into a head function applied to the argument descriptors. -/
def tcCb : Callbacks Ty where
  on_integer _ := .ok .int
  on_float _ := .ok .float
  on_boolean _ := .ok .bool
  on_string _ := .ok .str
  on_symbol s :=
    match TYPE_SYMBOL_TABLE.lookup s with
    | some v => .ok v
    | none => .error (.unknownSymbol s)
  on_list vs :=
    match vs with
    | [] => .error .unpackError
    | fn :: args => applyTy fn args

/-- The typecheck_lisp driver of typecheck.py. -/
def typecheck_lisp (text : String) : Except Err Ty :=
  parse tcCb text

/-- AstCallback variant whose boolean handler differs from astCb's everywhere;
used to observe that the engine's result never depends on on_boolean. -/
def astCbB : Callbacks AstNode :=
  { astCb with on_boolean := fun b => .ok (.bool (! b)) }

/-- Characters that are digits are none of the parser's structural characters. -/
theorem digit_props : ∀ c ∈ DIGITS, c ≠ ' ' ∧ c ≠ '(' ∧ c ≠ ')' ∧ c ≠ '.' := by decide

/-- Symbol characters are none of the parser's structural characters and are
not digits. -/
theorem sym_props : ∀ c ∈ SYMBOL_CHARACTERS,
    c ≠ ' ' ∧ c ≠ '(' ∧ c ∉ DIGITS ∧ c ≠ ')' := by decide

/-- Unfolding of the top-level driver on an explicit character list. -/
theorem parse_mk (cb : Callbacks T) (l : List Char) :
    parse cb ⟨l⟩ =
      match parseExpr cb (2 * l.length + 2) .initial l with
      | .error e => .error e
      | .ok (v, []) => .ok v
      | .ok (_, c :: cs) => .error (.unexpectedRemaining (c :: cs)) := rfl

/-- Exhausting the input in any state raises unexpected end of input. -/
theorem parseExpr_nil (cb : Callbacks T) (fuel : Nat) (st : PState T) :
    parseExpr cb (fuel + 1) st [] = .error .unexpectedEndOfInput := by
  cases st <;> rfl

/-- Initial state on a digit enters InDigits. -/
theorem parseExpr_initial_digit (cb : Callbacks T) (d : Char) (hd : d ∈ DIGITS)
    (fuel : Nat) (cs : List Char) :
    parseExpr cb (fuel + 1) .initial (d :: cs) = parseExpr cb fuel (.inDigits [d]) cs := by
  obtain ⟨h1, h2, -, -⟩ := digit_props d hd
  simp only [parseExpr]
  rw [if_neg h1, if_neg h2, if_pos hd]

/-- Initial state on a symbol character enters InSymbol. -/
theorem parseExpr_initial_sym (cb : Callbacks T) (s : Char) (hs : s ∈ SYMBOL_CHARACTERS)
    (fuel : Nat) (cs : List Char) :
    parseExpr cb (fuel + 1) .initial (s :: cs) = parseExpr cb fuel (.inSymbol [s]) cs := by
  obtain ⟨h1, h2, h3, -⟩ := sym_props s hs
  simp only [parseExpr]
  rw [if_neg h1, if_neg h2, if_neg h3, if_pos hs]

/-- A run of digit characters is consumed inside InDigits, one fuel step per
character, appending them to the accumulated literal text. -/
theorem parseExpr_digits_run (cb : Callbacks T) :
    ∀ (ds : List Char), (∀ c ∈ ds, c ∈ DIGITS) →
      ∀ (v : List Char) (fuel : Nat) (rest : List Char),
        parseExpr cb (ds.length + fuel) (.inDigits v) (ds ++ rest) =
          parseExpr cb fuel (.inDigits (v ++ ds)) rest := by
  intro ds
  induction ds with
  | nil => intro _ v fuel rest; simp
  | cons d ds ih =>
    intro hds v fuel rest
    have hd : d ∈ DIGITS := hds d (by simp)
    have hds' : ∀ c ∈ ds, c ∈ DIGITS := fun c hc => hds c (by simp [hc])
    have hlen : (d :: ds).length + fuel = (ds.length + fuel) + 1 := by
      simp [List.length_cons]; omega
    rw [hlen]
    show parseExpr cb ((ds.length + fuel) + 1) (.inDigits v) (d :: (ds ++ rest)) = _
    simp only [parseExpr]
    rw [if_pos hd, ih hds' (v ++ [d]) fuel rest]
    simp

/-- A run of symbol characters is consumed inside InSymbol, one fuel step per
character, appending them to the accumulated literal text. -/
theorem parseExpr_symbol_run (cb : Callbacks T) :
    ∀ (ss : List Char), (∀ c ∈ ss, c ∈ SYMBOL_CHARACTERS) →
      ∀ (v : List Char) (fuel : Nat) (rest : List Char),
        parseExpr cb (ss.length + fuel) (.inSymbol v) (ss ++ rest) =
          parseExpr cb fuel (.inSymbol (v ++ ss)) rest := by
  intro ss
  induction ss with
  | nil => intro _ v fuel rest; simp
  | cons s ss ih =>
    intro hss v fuel rest
    have hs : s ∈ SYMBOL_CHARACTERS := hss s (by simp)
    have hss' : ∀ c ∈ ss, c ∈ SYMBOL_CHARACTERS := fun c hc => hss c (by simp [hc])
    have hlen : (s :: ss).length + fuel = (ss.length + fuel) + 1 := by
      simp [List.length_cons]; omega
    rw [hlen]
    show parseExpr cb ((ss.length + fuel) + 1) (.inSymbol v) (s :: (ss ++ rest)) = _
    simp only [parseExpr]
    rw [if_pos hs, ih hss' (v ++ [s]) fuel rest]
    simp

/-- A run of ordinary characters (not a quote, not a backslash) is consumed
inside InString, one fuel step per character, appending them to the content. -/
theorem parseExpr_string_run (cb : Callbacks T) :
    ∀ (s : List Char), (∀ c ∈ s, c ≠ '"' ∧ c ≠ '\'' ∧ c ≠ '\\') →
      ∀ (v : List Char) (q : Char) (fuel : Nat) (rest : List Char),
        parseExpr cb (s.length + fuel) (.inString v q) (s ++ rest) =
          parseExpr cb fuel (.inString (v ++ s) q) rest := by
  intro s
  induction s with
  | nil => intro _ v q fuel rest; simp
  | cons c s ih =>
    intro hcs v q fuel rest
    obtain ⟨h1, h2, h3⟩ := hcs c (by simp)
    have hcs' : ∀ x ∈ s, x ≠ '"' ∧ x ≠ '\'' ∧ x ≠ '\\' := fun x hx => hcs x (by simp [hx])
    have hlen : (c :: s).length + fuel = (s.length + fuel) + 1 := by
      simp [List.length_cons]; omega
    rw [hlen]
    show parseExpr cb ((s.length + fuel) + 1) (.inString v q) (c :: (s ++ rest)) = _
    simp only [parseExpr]
    rw [if_neg (by rintro (⟨-, hc⟩ | ⟨-, hc⟩) <;> [exact h1 hc; exact h2 hc]),
      if_neg h3, ih hcs' (v ++ [c]) q fuel rest]
    simp

/-- The matching closing quote fires on_string and returns. -/
theorem parseExpr_string_close (cb : Callbacks T) (v : List Char) (q : Char)
    (hq : q = '"' ∨ q = '\'') (fuel : Nat) (rest : List Char) :
    parseExpr cb (fuel + 1) (.inString v q) (q :: rest) =
      (cb.on_string v).map fun t => (t, rest) := by
  rcases hq with h | h <;> subst h <;> rfl

/-- A space after digits fires on_integer and returns, consuming the space. -/
theorem parseExpr_digits_space (cb : Callbacks T) (v : List Char)
    (fuel : Nat) (rest : List Char) :
    parseExpr cb (fuel + 1) (.inDigits v) (' ' :: rest) =
      (cb.on_integer (pyInt v)).map fun t => (t, rest) := rfl

/-- A space after a symbol fires on_symbol and returns, consuming the space. -/
theorem parseExpr_symbol_space (cb : Callbacks T) (v : List Char)
    (fuel : Nat) (rest : List Char) :
    parseExpr cb (fuel + 1) (.inSymbol v) (' ' :: rest) =
      (cb.on_symbol v).map fun t => (t, rest) := rfl

/-- A nonempty all-digit input with nothing after it runs out of input in
InDigits; with one trailing space it returns the integer literal. -/
theorem digit_atom (cb : Callbacks T) (ds : List Char) (hne : ds ≠ [])
    (hds : ∀ c ∈ ds, c ∈ DIGITS) :
    parse cb ⟨ds⟩ = .error .unexpectedEndOfInput ∧
      parse cb ⟨ds ++ [' ']⟩ = (cb.on_integer (pyInt ds)).map fun t => t := by
  obtain ⟨d, ds', rfl⟩ : ∃ d ds', ds = d :: ds' := by
    cases ds with
    | nil => exact absurd rfl hne
    | cons d ds' => exact ⟨d, ds', rfl⟩
  have hd : d ∈ DIGITS := hds d (by simp)
  have hds' : ∀ c ∈ ds', c ∈ DIGITS := fun c hc => hds c (by simp [hc])
  constructor
  · rw [parse_mk]
    have hfu : 2 * (d :: ds').length + 2 = (2 * ds'.length + 3) + 1 := by
      simp [List.length_cons]; omega
    rw [hfu, parseExpr_initial_digit cb d hd]
    have hrun := parseExpr_digits_run cb ds' hds' [d] (ds'.length + 3) []
    rw [List.append_nil] at hrun
    have hfu2 : 2 * ds'.length + 3 = ds'.length + (ds'.length + 3) := by omega
    rw [hfu2, hrun]
    have hfu3 : ds'.length + 3 = (ds'.length + 2) + 1 := by omega
    rw [hfu3, parseExpr_nil]
  · rw [parse_mk]
    rw [List.cons_append]
    have hfu : 2 * (d :: (ds' ++ [' '])).length + 2 = (2 * ds'.length + 5) + 1 := by
      simp [List.length_cons, List.length_append]; omega
    rw [hfu, parseExpr_initial_digit cb d hd]
    have hfu2 : 2 * ds'.length + 5 = ds'.length + (ds'.length + 5) := by omega
    rw [hfu2, parseExpr_digits_run cb ds' hds' [d] (ds'.length + 5) [' ']]
    have hfu3 : ds'.length + 5 = (ds'.length + 4) + 1 := by omega
    rw [hfu3, parseExpr_digits_space]
    simp only [List.singleton_append]
    cases cb.on_integer (pyInt (d :: ds')) <;> rfl

/-- A nonempty all-symbol-character input with nothing after it runs out of
input in InSymbol; with one trailing space it returns the symbol literal. -/
theorem symbol_atom (cb : Callbacks T) (ss : List Char) (hne : ss ≠ [])
    (hss : ∀ c ∈ ss, c ∈ SYMBOL_CHARACTERS) :
    parse cb ⟨ss⟩ = .error .unexpectedEndOfInput ∧
      parse cb ⟨ss ++ [' ']⟩ = (cb.on_symbol ss).map fun t => t := by
  obtain ⟨s, ss', rfl⟩ : ∃ s ss', ss = s :: ss' := by
    cases ss with
    | nil => exact absurd rfl hne
    | cons s ss' => exact ⟨s, ss', rfl⟩
  have hs : s ∈ SYMBOL_CHARACTERS := hss s (by simp)
  have hss' : ∀ c ∈ ss', c ∈ SYMBOL_CHARACTERS := fun c hc => hss c (by simp [hc])
  constructor
  · rw [parse_mk]
    have hfu : 2 * (s :: ss').length + 2 = (2 * ss'.length + 3) + 1 := by
      simp [List.length_cons]; omega
    rw [hfu, parseExpr_initial_sym cb s hs]
    have hrun := parseExpr_symbol_run cb ss' hss' [s] (ss'.length + 3) []
    rw [List.append_nil] at hrun
    have hfu2 : 2 * ss'.length + 3 = ss'.length + (ss'.length + 3) := by omega
    rw [hfu2, hrun]
    have hfu3 : ss'.length + 3 = (ss'.length + 2) + 1 := by omega
    rw [hfu3, parseExpr_nil]
  · rw [parse_mk]
    rw [List.cons_append]
    have hfu : 2 * (s :: (ss' ++ [' '])).length + 2 = (2 * ss'.length + 5) + 1 := by
      simp [List.length_cons, List.length_append]; omega
    rw [hfu, parseExpr_initial_sym cb s hs]
    have hfu2 : 2 * ss'.length + 5 = ss'.length + (ss'.length + 5) := by omega
    rw [hfu2, parseExpr_symbol_run cb ss' hss' [s] (ss'.length + 5) [' ']]
    have hfu3 : ss'.length + 5 = (ss'.length + 4) + 1 := by omega
    rw [hfu3, parseExpr_symbol_space]
    simp only [List.singleton_append]
    cases cb.on_symbol (s :: ss') <;> rfl

/-- Initial state on a double quote opens a double-quoted string. -/
theorem parseExpr_initial_dq (cb : Callbacks T) (fuel : Nat) (cs : List Char) :
    parseExpr cb (fuel + 1) .initial ('"' :: cs) =
      parseExpr cb fuel (.inString [] '"') cs := rfl

/-- Initial state on a single quote opens a single-quoted string. -/
theorem parseExpr_initial_sq (cb : Callbacks T) (fuel : Nat) (cs : List Char) :
    parseExpr cb (fuel + 1) .initial ('\'' :: cs) =
      parseExpr cb fuel (.inString [] '\'') cs := rfl

/-- A whole quoted string literal with plain content parses on its own (the
closing quote completes it without any terminator), firing on_string on the
unquoted content, whichever of the two quote characters delimits it. -/
theorem string_literal_parse (cb : Callbacks T) (s : List Char)
    (h : ∀ c ∈ s, c ≠ '"' ∧ c ≠ '\'' ∧ c ≠ '\\') (q : Char) (hq : q = '"' ∨ q = '\'') :
    parse cb ⟨q :: (s ++ [q])⟩ = (cb.on_string s).map fun t => t := by
  rw [parse_mk]
  have hfu : 2 * (q :: (s ++ [q])).length + 2 = (2 * s.length + 5) + 1 := by
    simp [List.length_cons, List.length_append]; omega
  rw [hfu]
  have hinit : parseExpr cb ((2 * s.length + 5) + 1) .initial (q :: (s ++ [q])) =
      parseExpr cb (2 * s.length + 5) (.inString [] q) (s ++ [q]) := by
    rcases hq with hh | hh <;> subst hh
    · exact parseExpr_initial_dq cb _ _
    · exact parseExpr_initial_sq cb _ _
  rw [hinit]
  have hfu2 : 2 * s.length + 5 = s.length + (s.length + 5) := by omega
  rw [hfu2, parseExpr_string_run cb s h [] q (s.length + 5) [q]]
  have hfu3 : s.length + 5 = (s.length + 4) + 1 := by omega
  rw [hfu3, List.nil_append, parseExpr_string_close cb s q hq]
  cases cb.on_string s <;> rfl

/-- Python's repr of plain printable-ASCII content (no quotes, no backslash)
is exactly the content wrapped in single quotes, whatever quote character
delimited the source literal. -/
theorem pyRepr_plain (s : List Char)
    (h : ∀ c ∈ s, c ≠ '"' ∧ c ≠ '\'' ∧ c ≠ '\\' ∧ 32 ≤ c.toNat ∧ c.toNat ≤ 126) :
    pyRepr s = '\'' :: (s ++ ['\'']) := by
  have key : ∀ (l : List Char),
      (∀ c ∈ l, c ≠ '"' ∧ c ≠ '\'' ∧ c ≠ '\\' ∧ 32 ≤ c.toNat ∧ c.toNat ≤ 126) →
      (l.map (reprEscape '\'')).flatten = l := by
    intro l
    induction l with
    | nil => intro _; rfl
    | cons c cs ih =>
      intro hl
      obtain ⟨h1, h2, h3, h4, h5⟩ := hl c (by simp)
      have hesc : reprEscape '\'' c = [c] := by
        unfold reprEscape
        rw [if_neg h3, if_neg h2,
          if_neg (by intro hh; subst hh; exact absurd h4 (by decide)),
          if_neg (by intro hh; subst hh; exact absurd h4 (by decide)),
          if_neg (by intro hh; subst hh; exact absurd h4 (by decide)),
          if_neg (by omega)]
      simp [hesc, ih fun x hx => hl x (by simp [hx])]
  have hq : ¬ ('\'' ∈ s ∧ ¬ '"' ∈ s) := by
    rintro ⟨hc, -⟩
    exact (h _ hc).2.1 rfl
  unfold pyRepr
  rw [if_neg hq]
  show '\'' :: ((s.map (reprEscape '\'')).flatten ++ ['\'']) = '\'' :: (s ++ ['\''])
  rw [key s h]

/-- The engine's outcome does not depend on the on_boolean handler: two
callback bundles agreeing on the five other handlers drive the machine to the
same result on every fuel, state and input. -/
theorem parseExpr_cb_agnostic {T : Type} (cb₁ cb₂ : Callbacks T)
    (hi : cb₁.on_integer = cb₂.on_integer) (hf : cb₁.on_float = cb₂.on_float)
    (hs : cb₁.on_string = cb₂.on_string) (hy : cb₁.on_symbol = cb₂.on_symbol)
    (hl : cb₁.on_list = cb₂.on_list) :
    ∀ (fuel : Nat) (st : PState T) (cs : List Char),
      parseExpr cb₁ fuel st cs = parseExpr cb₂ fuel st cs := by
  intro fuel
  induction fuel with
  | zero => intro st cs; cases st <;> cases cs <;> rfl
  | succ f ih =>
    intro st cs
    cases cs with
    | nil => cases st <;> rfl
    | cons c cs =>
      cases st with
      | initial =>
        simp only [parseExpr]
        split_ifs <;> first | exact ih _ _ | rfl
      | inList vs =>
        simp only [parseExpr]
        split_ifs
        · rw [hl]
        · exact ih _ _
        · rw [ih .initial (c :: cs)]
          cases hres : parseExpr cb₂ f .initial (c :: cs) with
          | error e => rfl
          | ok p =>
            obtain ⟨v, rest⟩ := p
            exact ih _ _
      | inDigits v =>
        simp only [parseExpr]
        split_ifs <;> first | exact ih _ _ | rw [hi] | rfl
      | inDecimal v =>
        simp only [parseExpr]
        split_ifs <;> first | exact ih _ _ | rw [hf] | rfl
      | inSymbol v =>
        simp only [parseExpr]
        split_ifs <;> first | exact ih _ _ | rw [hy] | rfl
      | inString v q =>
        simp only [parseExpr]
        split_ifs with h1 h2
        · rw [hs]
        · cases cs with
          | nil => rfl
          | cons e cs' =>
            dsimp only
            split_ifs <;> first | exact ih _ _ | (cases cs' <;> rfl)
        · exact ih _ _

/-- The dedup of a nonempty list has length one exactly when every element
equals the head: this is what len(set(args)) == 1 tests. -/
theorem dedup_length_one (a : Ty) (args : List Ty) :
    (a :: args).dedup.length = 1 ↔ ∀ b ∈ args, b = a := by
  constructor
  · intro h
    obtain ⟨x, hx⟩ := List.length_eq_one.mp h
    intro b hb
    have hbx : b = x := by
      have : b ∈ (a :: args).dedup := List.mem_dedup.mpr (by simp [hb])
      rw [hx] at this
      simpa using this
    have hax : a = x := by
      have : a ∈ (a :: args).dedup := List.mem_dedup.mpr (by simp)
      rw [hx] at this
      simpa using this
    rw [hbx, hax]
  · intro h
    have key : ∀ (l : List Ty), (∀ b ∈ l, b = a) → (a :: l).dedup = [a] := by
      intro l
      induction l with
      | nil => intro _; simp
      | cons x xs ih =>
        intro hx
        have hxa : x = a := hx x (by simp)
        rw [hxa]
        have hxs : ∀ b ∈ xs, b = a := fun b hb => hx b (by simp [hb])
        have hmem : a ∈ a :: xs := by simp
        rw [List.dedup_cons_of_mem hmem, ih hxs]
    rw [key args h]
    rfl

/-- C1: the evaluator matches the spec's examples: eval of "(add 1 1)" gives
the integer 2 and eval of "(nth (list 1 (+ 2 3) 9) 1)" gives the integer 5,
through the fused parse+eval with the fixed symbol table. -/
theorem C1_eval_examples :
    eval_lisp (r"(add 1 1)") = .ok (.int 2) ∧
    eval_lisp (r"(nth (list 1 (+ 2 3) 9) 1)") = .ok (.int 5) :=
  ⟨rfl, rfl⟩

/-- C2: the typechecker matches the spec's examples: typecheck of "(add 1 1)"
and of "(nth (list 1 (add 2 3) 9) 1)" give the integer descriptor, and
typecheck of "(list 's')" gives the list-of-string descriptor. -/
theorem C2_typecheck_examples :
    typecheck_lisp (r"(add 1 1)") = .ok .int ∧
    typecheck_lisp (r"(nth (list 1 (add 2 3) 9) 1)") = .ok .int ∧
    typecheck_lisp (r"(list 's')") = .ok (.listG .str) :=
  ⟨rfl, rfl, rfl⟩

/-- C3 counterexample: the double-quoted input string "hello" is rendered in
the AST single-quoted, as 'hello', not in its original double-quoted source
form — the AST Builder does not preserve the original quote character. -/
theorem C3_quote_counterexample :
    parse_ast (String.mk ('"' :: ((r"hello").toList ++ ['"']))) =
      .ok (.str ((r"'hello'").toList)) ∧
    (r"'hello'").toList ≠ '"' :: ((r"hello").toList ++ ['"']) :=
  ⟨rfl, by decide⟩

/-- C3 amended: every string literal with plain printable-ASCII content is
rendered as Python's repr of its content — single-quoted — regardless of
whether the source literal was delimited by double or single quotes. -/
theorem C3_repr_rendering (s : List Char)
    (h : ∀ c ∈ s, c ≠ '"' ∧ c ≠ '\'' ∧ c ≠ '\\' ∧ 32 ≤ c.toNat ∧ c.toNat ≤ 126) :
    parse_ast ⟨'"' :: (s ++ ['"'])⟩ = .ok (.str ('\'' :: (s ++ ['\'']))) ∧
    parse_ast ⟨'\'' :: (s ++ ['\''])⟩ = .ok (.str ('\'' :: (s ++ ['\'']))) := by
  have h3 : ∀ c ∈ s, c ≠ '"' ∧ c ≠ '\'' ∧ c ≠ '\\' := fun c hc =>
    ⟨(h c hc).1, (h c hc).2.1, (h c hc).2.2.1⟩
  constructor
  · rw [show parse_ast ⟨'"' :: (s ++ ['"'])⟩ = parse astCb ⟨'"' :: (s ++ ['"'])⟩ from rfl,
      string_literal_parse astCb s h3 '"' (Or.inl rfl)]
    show Except.ok (AstNode.str (pyRepr s)) = _
    rw [pyRepr_plain s h]
  · rw [show parse_ast ⟨'\'' :: (s ++ ['\''])⟩ = parse astCb ⟨'\'' :: (s ++ ['\''])⟩ from rfl,
      string_literal_parse astCb s h3 '\'' (Or.inr rfl)]
    show Except.ok (AstNode.str (pyRepr s)) = _
    rw [pyRepr_plain s h]

/-- Witness for the amended C3 theorem at the content hello. -/
theorem C3_repr_rendering_witness :
    parse_ast ⟨'"' :: ((r"hello").toList ++ ['"'])⟩ =
      .ok (.str ('\'' :: ((r"hello").toList ++ ['\'']))) :=
  (C3_repr_rendering ((r"hello").toList) (by decide)).1

/-- C5: the error taxonomy on the spec's three examples: the unterminated list
"(add 1 1" fails with unexpected end of input, "(add 1 1) x" fails with
trailing input carrying the unconsumed characters, and evaluating "(foo 1)"
fails with an unknown-symbol error; none returns a value. -/
theorem C5_error_taxonomy :
    parse_ast (r"(add 1 1") = .error .unexpectedEndOfInput ∧
    parse_ast (r"(add 1 1) x") = .error (.unexpectedRemaining ((r" x").toList)) ∧
    eval_lisp (r"(foo 1)") = .error (.unknownSymbol ((r"foo").toList)) :=
  ⟨rfl, rfl, rfl⟩

/-- C6: escape handling inside a string opened with quote q: after a
backslash the next character is consumed; if it equals q or is a backslash it
is appended literally and the string continues; any other character is a
fatal error — reported as the invalid-escape ValueError naming the character
after the offending one, or as an IndexError when the offending character
ends the input (the error message indexes the remaining characters).  In
particular escaping the non-active quote character is an error. -/
theorem C6_escape_behavior :
    ∀ (T : Type) (cb : Callbacks T) (fuel : Nat) (v : List Char) (q c : Char)
      (rest : List Char), q = '"' ∨ q = '\'' →
      ((c = q ∨ c = '\\') →
        parseExpr cb (fuel + 1) (.inString v q) ('\\' :: c :: rest) =
          parseExpr cb fuel (.inString (v ++ [c]) q) rest) ∧
      (c ≠ q → c ≠ '\\' → rest = [] →
        parseExpr cb (fuel + 1) (.inString v q) ('\\' :: c :: rest) =
          .error .indexError) ∧
      (∀ (c2 : Char) (rest' : List Char), c ≠ q → c ≠ '\\' → rest = c2 :: rest' →
        parseExpr cb (fuel + 1) (.inString v q) ('\\' :: c :: rest) =
          .error (.invalidEscape c2)) := by
  intro T cb fuel v q c rest hq
  refine ⟨?_, ?_, ?_⟩
  · rintro (hcq | hcb)
    · rcases hq with hh | hh <;> subst hh <;> subst hcq <;> rfl
    · subst hcb
      rcases hq with hh | hh <;> subst hh <;> rfl
  · intro hcq hcb hrest
    subst hrest
    rcases hq with hh | hh <;> subst hh <;> simp [parseExpr, hcq, hcb]
  · intro c2 rest' hcq hcb hrest
    subst hrest
    rcases hq with hh | hh <;> subst hh <;> simp [parseExpr, hcq, hcb]

/-- Witness for C6 at the claim's example: the escape of a single quote
inside a double-quoted string is a fatal error. -/
theorem C6_escape_witness :
    parseExpr astCb 5 (.inString [] '"') ['\\', '\'', 'x'] =
      .error (.invalidEscape 'x') :=
  ((C6_escape_behavior AstNode astCb 4 [] '"' '\'' ['x']) (Or.inl rfl)).2.2 'x' []
    (by decide) (by decide) rfl

/-- C7: no input ever invokes on_boolean: the engine's result is the same for
any two callback bundles that agree on the five other handlers, and the
boolean-looking token True is dispatched through on_symbol, leaving the
symbol string True in the AST. -/
theorem C7_no_boolean :
    (∀ (T : Type) (cb₁ cb₂ : Callbacks T),
      cb₁.on_integer = cb₂.on_integer → cb₁.on_float = cb₂.on_float →
      cb₁.on_string = cb₂.on_string → cb₁.on_symbol = cb₂.on_symbol →
      cb₁.on_list = cb₂.on_list →
      ∀ (fuel : Nat) (st : PState T) (cs : List Char),
        parseExpr cb₁ fuel st cs = parseExpr cb₂ fuel st cs) ∧
    parse_ast (r"(list True)") =
      .ok (.list [.str ((r"list").toList), .str ((r"True").toList)]) :=
  ⟨fun _T cb₁ cb₂ hi hf hs hy hl => parseExpr_cb_agnostic cb₁ cb₂ hi hf hs hy hl, rfl⟩

/-- Witness for C7: two AST callback bundles differing only in on_boolean
drive the engine identically on a concrete input. -/
theorem C7_no_boolean_witness :
    parseExpr astCbB 12 .initial ((r"(1)").toList) =
      parseExpr astCb 12 .initial ((r"(1)").toList) :=
  C7_no_boolean.1 AstNode astCbB astCb rfl rfl rfl rfl rfl 12 .initial ((r"(1)").toList)

/-- C8: the type-level list function on a non-empty argument list gives the
list-of descriptor of the head exactly when all arguments are equal, and
fails with the assertion error when any two differ, as on the input
"(list 'd' 2 3)". -/
theorem C8_list_type_iff :
    (∀ (a : Ty) (args : List Ty),
      ((∀ b ∈ args, b = a) → list_type (a :: args) = .ok (.listG a)) ∧
      ((¬ ∀ b ∈ args, b = a) → list_type (a :: args) = .error .assertionError)) ∧
    typecheck_lisp (r"(list 'd' 2 3)") = .error .assertionError := by
  refine ⟨?_, rfl⟩
  intro a args
  constructor
  · intro h
    unfold list_type
    rw [if_pos ((dedup_length_one a args).mpr h)]
  · intro h
    unfold list_type
    rw [if_neg (fun hh => h ((dedup_length_one a args).mp hh))]

/-- Witness for C8 on a homogeneous and a mixed argument list. -/
theorem C8_list_type_iff_witness :
    list_type [Ty.int, Ty.int] = .ok (.listG Ty.int) ∧
    list_type [Ty.str, Ty.int, Ty.int] = .error .assertionError :=
  ⟨(C8_list_type_iff.1 Ty.int [Ty.int]).1 (by decide),
   (C8_list_type_iff.1 Ty.str [Ty.int, Ty.int]).2 (by decide)⟩

/-- C9: a single top-level integer or symbol atom with nothing after it always
fails with unexpected end of input, because those atoms complete only on a
following space or right parenthesis, while the same atom followed by one
space parses successfully; likewise for the float example 1.5. -/
theorem C9_atom_eoi :
    (∀ (ds : List Char), ds ≠ [] → (∀ c ∈ ds, c ∈ DIGITS) →
      parse_ast ⟨ds⟩ = .error .unexpectedEndOfInput ∧
      parse_ast ⟨ds ++ [' ']⟩ = .ok (.int (pyInt ds))) ∧
    (∀ (ss : List Char), ss ≠ [] → (∀ c ∈ ss, c ∈ SYMBOL_CHARACTERS) →
      parse_ast ⟨ss⟩ = .error .unexpectedEndOfInput ∧
      parse_ast ⟨ss ++ [' ']⟩ = .ok (.str ss)) ∧
    parse_ast (r"1.5") = .error .unexpectedEndOfInput ∧
    parse_ast (r"1.5 ") = .ok (.float (pyFloat ((r"1.5").toList))) := by
  refine ⟨?_, ?_, rfl, rfl⟩
  · intro ds hne hds
    obtain ⟨h1, h2⟩ := digit_atom astCb ds hne hds
    refine ⟨h1, ?_⟩
    rw [show parse_ast ⟨ds ++ [' ']⟩ = parse astCb ⟨ds ++ [' ']⟩ from rfl, h2]
    rfl
  · intro ss hne hss
    obtain ⟨h1, h2⟩ := symbol_atom astCb ss hne hss
    refine ⟨h1, ?_⟩
    rw [show parse_ast ⟨ss ++ [' ']⟩ = parse astCb ⟨ss ++ [' ']⟩ from rfl, h2]
    rfl

/-- Witness for C9 at the atoms 1 and foo. -/
theorem C9_atom_eoi_witness :
    parse_ast ⟨(r"1").toList⟩ = .error .unexpectedEndOfInput ∧
    parse_ast ⟨(r"foo").toList ++ [' ']⟩ = .ok (.str ((r"foo").toList)) :=
  ⟨(C9_atom_eoi.1 ((r"1").toList) (by decide) (by decide)).1,
   (C9_atom_eoi.2.1 ((r"foo").toList) (by decide) (by decide)).2⟩

/-- C10: the empty list parses to an empty AST list node, but evaluating or
typechecking it fails when on_list unpacks the empty children into a head and
arguments; the two consumers' on_list reject the empty sequence outright. -/
theorem C10_empty_list :
    parse_ast (r"()") = .ok (.list []) ∧
    eval_lisp (r"()") = .error .unpackError ∧
    typecheck_lisp (r"()") = .error .unpackError ∧
    evalCb.on_list [] = .error .unpackError ∧
    tcCb.on_list [] = .error .unpackError :=
  ⟨rfl, rfl, rfl, rfl, rfl⟩

end RecursePair
